import Mathlib

/-!
# Verification of the HR ID-card generator

Shallow embedding of the two Python variants in this repository:
`app.py` (ZIP-only variant, namespace `App`) and the richer variant
embedded in `requirements.txt` (namespace `Req`).  Pure string and
path manipulation is translated directly; external libraries (PIL,
arabic_reshaper, python-bidi, python-barcode) and the filesystem are
modelled as explicit environment parameters (`Ctx`, `FS`), with a
raised exception modelled as `Option.none`.
-/

/-! ## Python string and path primitives -/

/-- Python `str.lower()` restricted to its ASCII action, applied
character-wise.  Filenames compared by the resolver are lowered with
this; non-ASCII characters are unchanged, as in CPython for the
character sets exercised here. -/
def lowerStr (s : String) : String := ⟨s.data.map Char.toLower⟩

/-- Characters stripped by Python `str.strip()` (the ASCII whitespace
set; Unicode whitespace is out of the modelled input range). -/
def pyWhitespace (c : Char) : Bool :=
  c = ' ' || c = '\t' || c = '\n' || c = '\r' || c = '\x0b' || c = '\x0c'

/-- Python `str.strip()`. -/
def pyStrip (s : String) : String :=
  ⟨((s.data.dropWhile pyWhitespace).reverse.dropWhile pyWhitespace).reverse⟩

/-- The characters after the last `/`, i.e. `pathlib.Path(...).name`
for paths without a trailing slash. -/
def lastComponentList (cs : List Char) : List Char :=
  (cs.reverse.takeWhile (fun c => c != '/')).reverse

/-- Index of the last `.` in a name, i.e. Python `name.rfind('.')`
when a dot occurs (`none` otherwise). -/
def rfindDot (cs : List Char) : Option Nat :=
  ((List.range cs.length).filter (fun i => cs.getD i ' ' == '.')).getLast?

/-- `pathlib.PurePath.stem` on a bare name: the name up to the last
dot, provided that dot is neither the first nor the last character. -/
def stemChars (cs : List Char) : List Char :=
  match rfindDot cs with
  | some i => if 0 < i ∧ i < cs.length - 1 then cs.take i else cs
  | none => cs

/-- `pathlib.PurePath.suffix` on a bare name. -/
def suffixChars (cs : List Char) : List Char :=
  match rfindDot cs with
  | some i => if 0 < i ∧ i < cs.length - 1 then cs.drop i else []
  | none => []

/-- `pathlib.Path(s).stem`. -/
def pyStem (s : String) : String := ⟨stemChars (lastComponentList s.data)⟩

/-- `pathlib.Path(s).suffix`. -/
def pySuffix (s : String) : String := ⟨suffixChars (lastComponentList s.data)⟩

/-! ## Filesystem model

`os.walk(root)` is consumed by both resolvers as a sequence of
`(dirpath, filenames)` pairs in encounter order; the walk result
itself is the model of the extracted photo tree. -/

/-- The result of `os.walk` over the photo root: directories in walk
order, each with its filenames in directory-listing encounter order. -/
abbrev FS := List (String × List String)

/-! ## Photo Resolver, `app.py` variant (lines 81-90)

```python
def find_photo_path(root_dir: str, requested: str):
    if not requested:
        return None
    req_stem = Path(requested).stem.lower()
    for dirpath, _, filenames in os.walk(root_dir):
        for fn in filenames:
            if Path(fn).stem.lower() == req_stem:
                return os.path.join(dirpath, fn)
    return None
```
-/

namespace App

/-- Inner `for fn in filenames` loop of `app.py`'s `find_photo_path`:
first filename whose lowered stem equals `req_stem`, joined to the
directory path. -/
def findInFiles (req_stem : String) (dirpath : String) : List String → Option String
  | [] => none
  | fn :: fns =>
    if lowerStr (pyStem fn) = req_stem then some (dirpath ++ "/" ++ fn)
    else findInFiles req_stem dirpath fns

/-- Outer `for dirpath, _, filenames in os.walk(...)` loop of
`app.py`'s `find_photo_path`. -/
def findInWalk (req_stem : String) : FS → Option String
  | [] => none
  | e :: rest =>
    match findInFiles req_stem e.1 e.2 with
    | some p => some p
    | none => findInWalk req_stem rest

/-- `app.py` `find_photo_path`: first stem match in walk encounter
order; `None` for an empty request. -/
def find_photo_path (fs : FS) (requested : String) : Option String :=
  if requested = "" then none
  else findInWalk (lowerStr (pyStem requested)) fs

end App

/-! ## Photo Resolver, `requirements.txt` variant (lines 136-150)

```python
def find_photo_path(root_dir: str, requested: str) -> Optional[str]:
    if not requested:
        return None
    req_stem = Path(str(requested)).stem.lower()
    candidates = []
    for dirpath, _, filenames in os.walk(root_dir):
        for fn in filenames:
            if Path(fn).stem.lower() == req_stem:
                candidates.append(os.path.join(dirpath, fn))
    if candidates:
        order = {".png": 0, ".jpg": 1, ".jpeg": 2, ".bmp": 3}
        candidates.sort(key=lambda p: order.get(Path(p).suffix.lower(), 9))
        return candidates[0]
    return None
```
-/

/-- The sort key `order.get(Path(p).suffix.lower(), 9)` of the
`requirements.txt` resolver: PNG 0, JPG 1, JPEG 2, BMP 3, anything
else 9. -/
def extPriority (p : String) : Nat :=
  let e := lowerStr (pySuffix p)
  if e = ".png" then 0
  else if e = ".jpg" then 1
  else if e = ".jpeg" then 2
  else if e = ".bmp" then 3
  else 9

/-- Stable insertion of `a` into a list sorted by `key`: `a` is placed
before the first element of key `≥ key a`, so earlier-encountered
elements of equal key stay first, as in Python's stable `list.sort`. -/
def orderedInsertKey (key : α → Nat) (a : α) : List α → List α
  | [] => [a]
  | b :: l => if key a ≤ key b then a :: b :: l else b :: orderedInsertKey key a l

/-- Stable sort by `key` (insertion sort).  Python's `list.sort(key=...)`
is a stable sort by the same key, and any two stable sorts by the same
key agree, so this is extensionally the sort performed by the source. -/
def insertionSortKey (key : α → Nat) : List α → List α
  | [] => []
  | a :: l => orderedInsertKey key a (insertionSortKey key l)

namespace Req

/-- Candidate collection of the `requirements.txt` resolver: all
stem matches in walk encounter order, joined to their directory. -/
def candidates (fs : FS) (req_stem : String) : List String :=
  fs.flatMap (fun e =>
    (e.2.filter (fun fn => lowerStr (pyStem fn) == req_stem)).map
      (fun fn => e.1 ++ "/" ++ fn))

/-- `requirements.txt` `find_photo_path`: stable-sort the candidates by
extension priority and return the first, or `None` when the request is
empty or there are no candidates. -/
def find_photo_path (fs : FS) (requested : String) : Option String :=
  if requested = "" then none
  else
    match insertionSortKey extPriority (candidates fs (lowerStr (pyStem requested))) with
    | [] => none
    | p :: _ => some p

end Req

/-! ## Specification-side description of the tie-break

The spec says the resolver returns the single highest-priority match,
extensions outside the known four losing in encounter order.  That is:
the first element, in encounter order, whose key is minimal. -/

/-- The first element of `l` (in order) attaining the minimal `key`:
`a` is chosen over the best of the rest exactly when its key is `≤`.
This transcribes the spec's tie-break rule, for comparison with the
sort performed by the code. -/
def firstMinBy (key : α → Nat) : List α → Option α
  | [] => none
  | a :: l =>
    match firstMinBy key l with
    | none => some a
    | some b => if key a ≤ key b then some a else some b

/-! ## Resolver characterization lemmas -/

/-- Some file under the walked tree has the given lowered stem. -/
def hasMatch (fs : FS) (stem : String) : Prop :=
  ∃ e ∈ fs, ∃ fn ∈ e.2, lowerStr (pyStem fn) = stem

/-- `p` is the join of a directory of the walk with one of its files
whose lowered stem is `stem`. -/
def matchedPath (fs : FS) (stem : String) (p : String) : Prop :=
  ∃ e ∈ fs, ∃ fn ∈ e.2, lowerStr (pyStem fn) = stem ∧ p = e.1 ++ "/" ++ fn

/-! ## Roster rows (pandas `df.iterrows()` rows)

A cell read from the spreadsheet is either a string value or the NaN
that pandas substitutes for a missing cell; `Cell.pyStr` is Python
`str(...)` on it (`str(float('nan')) == "nan"`).  A row is the label
to cell association of one `iterrows()` row; numeric cells are
modelled by the string `str(...)` produces for them. -/

inductive Cell
  | strV (s : String)
  | nan
deriving DecidableEq

/-- Python `str(x)` on a cell value. -/
def Cell.pyStr : Cell → String
  | strV s => s
  | nan => "nan"

/-- One roster row: the column-label to cell association. -/
abbrev Row := List (String × Cell)

/-- `str(row.get(col, ""))`: the cell's `str` image when the column is
present (even when its value is NaN), `""` when the column is absent. -/
def rowGetStr (row : Row) (col : String) : String :=
  match row.lookup col with
  | some c => c.pyStr
  | none => ""

/-- `str(row.get(col, "")).strip()` — the field extraction applied to
every text field in the row loop (`app.py` lines 159-163). -/
def getField (row : Row) (col : String) : String :=
  pyStrip (rowGetStr row col)

/-- `row.get('الاسم', '')` as interpolated into warning messages
(no `.strip()` in the f-strings). -/
def rawName (row : Row) : String := rowGetStr row "الاسم"

/-! ## Image and drawing model

A PIL image is its pixel dimensions together with the sequence of
drawing operations composited onto it.  `ImageDraw` text calls and
`Image.paste` append an operation and leave the canvas dimensions
unchanged (as PIL does: pasting crops at the canvas border);
`Image.resize` produces an image of the requested dimensions. -/

/-- One `draw.text` call: position and the (already shaped) string. -/
structure TextDraw where
  x : Int
  y : Int
  txt : String
deriving DecidableEq

/-- An operation composited onto a card. -/
inductive DrawOp
  | text (t : TextDraw)
  | pasteAt (x y : Int) (w h : Nat)
deriving DecidableEq

/-- A PIL image: dimensions plus composited operations. -/
structure PILImage where
  width : Nat
  height : Nat
  ops : List DrawOp
deriving DecidableEq

/-- `Image.copy()`. -/
def PILImage.copy (img : PILImage) : PILImage := img

/-- `Image.resize(size)`: same content, new dimensions. -/
def PILImage.resize (img : PILImage) (size : Nat × Nat) : PILImage :=
  ⟨size.1, size.2, img.ops⟩

/-! ## Configuration constants (`app.py` lines 20-26) -/

def PHOTO_POS : Int × Int := (111, 168)
def PHOTO_SIZE : Nat × Nat := (300, 300)
def BARCODE_POS : Int × Int := (570, 465)
def BARCODE_SIZE : Nat × Nat := (390, 120)
def NAME_OFFSET_X : Int := -40
def NAME_OFFSET_Y : Int := -20

/-! ## External environment

`arabic_reshaper.reshape`, `bidi.algorithm.get_display`, font metrics
(`draw.textbbox` heights), the extracted archive tree, `os.path.exists`,
`Image.open` and the `Code128` barcode round-trip are the run's
environment; an exception raised inside one of the guarded blocks is
modelled by `none`. -/

structure Ctx where
  reshape : String → String
  get_display : String → String
  /-- `bbox[3] - bbox[1]` of `draw.textbbox((0,0), s, font=font_ar)`. -/
  textHeight : String → Nat
  /-- `os.walk` view of the extracted archive directory. -/
  fs : FS
  pathExists : String → Bool
  /-- `Image.open(path).convert("RGB")`; `none` models a raised exception. -/
  openPhoto : String → Option PILImage
  /-- `Code128(id, writer=ImageWriter()).save(...)` then `Image.open`;
  `none` models a raised exception (e.g. unsupported characters). -/
  encodeBarcode : String → Option PILImage

namespace App

/-- `prepare_text` (`app.py` lines 63-68): empty in, empty out;
otherwise reshape then bidi reorder. -/
def prepare_text (ctx : Ctx) (text : String) : String :=
  if text = "" then "" else ctx.get_display (ctx.reshape text)

/-- `draw_aligned_text` (`app.py` lines 70-74): one `draw.text` call,
skipped for empty text.  No line splitting in this variant. -/
def draw_aligned_text (xy : Int × Int) (text : String) : List TextDraw :=
  if text = "" then [] else [⟨xy.1, xy.2, text⟩]

/-- `draw_bold_text` (`app.py` lines 76-79): four layered draws. -/
def draw_bold_text (xy : Int × Int) (text : String) : List TextDraw :=
  [((0 : Int), (0 : Int)), (1, 0), (0, 1), (1, 1)].flatMap
    (fun d => draw_aligned_text (xy.1 + d.1, xy.2 + d.2) text)

/-- Composite a batch of `draw.text` calls onto the card. -/
def drawOps (card : PILImage) (calls : List TextDraw) : PILImage :=
  { card with ops := card.ops ++ calls.map DrawOp.text }

/-- `card.paste(img, pos)`. -/
def pasteOnto (card : PILImage) (img : PILImage) (pos : Int × Int) : PILImage :=
  { card with ops := card.ops ++ [DrawOp.pasteAt pos.1 pos.2 img.width img.height] }

/-- Text placement of the row loop (`app.py` lines 158-181): name in
fake bold at the offset anchor, job below it by the name's bbox height
plus 20, then the composed employee-number label below that by the
job's bbox height plus 25. -/
def textLayer (ctx : Ctx) (row : Row) (card : PILImage) : PILImage :=
  let name := prepare_text ctx (getField row "الاسم")
  let job := prepare_text ctx (getField row "الوظيفة")
  let num := getField row "الرقم"
  let name_xy : Int × Int := (915 + NAME_OFFSET_X, 240 + NAME_OFFSET_Y)
  let card1 := drawOps card (draw_bold_text name_xy name)
  let name_height : Int := (ctx.textHeight name : Int) + 20
  let job_xy : Int × Int := (name_xy.1, name_xy.2 + name_height)
  let card2 := drawOps card1 (draw_aligned_text job_xy job)
  let job_height : Int := (ctx.textHeight job : Int) + 25
  let id_xy : Int × Int := (name_xy.1, job_xy.2 + job_height)
  let job_id_label := prepare_text ctx ("الرقم الوظيفي: " ++ num)
  drawOps card2 (draw_aligned_text id_xy job_id_label)

/-- The per-row warnings the UI surfaces. -/
inductive Warn
  | photoFailed (name : String)
  | photoNotFound (name requested : String)
  | barcodeFailed (name : String)
deriving DecidableEq

/-- Photo placement (`app.py` lines 183-192): resolve, and only when a
path was found and exists, open/resize/paste guarded by `try`; a
failed open degrades to a warning, an unresolved photo to a
not-found warning. -/
def photoStep (ctx : Ctx) (row : Row) (card : PILImage) : PILImage × List Warn :=
  match find_photo_path ctx.fs (getField row "الصورة") with
  | some p =>
    if ctx.pathExists p then
      match ctx.openPhoto p with
      | some img => (pasteOnto card (img.resize PHOTO_SIZE) PHOTO_POS, [])
      | none => (card, [Warn.photoFailed (rawName row)])
    else (card, [Warn.photoNotFound (rawName row) (getField row "الصورة")])
  | none => (card, [Warn.photoNotFound (rawName row) (getField row "الصورة")])

/-- Barcode placement (`app.py` lines 194-206): only for a non-empty
national identifier; the whole encode/resize/paste block is guarded by
`try`, a failure degrades to a warning.  (This variant records no
warning for an empty identifier.) -/
def barcodeStep (ctx : Ctx) (row : Row) (card : PILImage) : PILImage × List Warn :=
  if getField row "الرقم القومي" = "" then (card, [])
  else
    match ctx.encodeBarcode (getField row "الرقم القومي") with
    | some bimg => (pasteOnto card (bimg.resize BARCODE_SIZE) BARCODE_POS, [])
    | none => (card, [Warn.barcodeFailed (rawName row)])

/-- One iteration of the row loop (`app.py` lines 153-208): copy the
template, draw the three text blocks, place photo and barcode. -/
def composeCard (ctx : Ctx) (template : PILImage) (row : Row) : PILImage × List Warn :=
  let card := textLayer ctx row template.copy
  let pr := photoStep ctx row card
  let br := barcodeStep ctx row pr.1
  (br.1, pr.2 ++ br.2)

/-- `output_cards` accumulated by the row loop, in roster order. -/
def outputCards (ctx : Ctx) (template : PILImage) (rows : List Row) : List PILImage :=
  rows.map (fun r => (composeCard ctx template r).1)

/-- PDF export (`app.py` lines 214-217): refused on an empty card
list; otherwise the first card is page one and the rest are appended
in order. -/
def exportPDF (cards : List PILImage) : Option (List PILImage) :=
  match cards with
  | [] => none
  | c :: rest => some (c :: rest)

/-! ## ZIP-variant pre-scan (`app.py` lines 137-146) -/

/-- `available_photos`: every extracted filename, lowered. -/
def availablePhotos (fs : FS) : List String :=
  fs.flatMap (fun e => e.2.map lowerStr)

/-- `requested_photos`: `str(x).strip().lower()` of every non-NaN cell
of the `الصورة` column (`dropna` removes NaN cells). -/
def requestedPhotos (df : List Row) : List String :=
  df.filterMap (fun row =>
    match row.lookup "الصورة" with
    | some (Cell.strV s) => some (lowerStr (pyStrip s))
    | _ => none)

/-- Whether the pre-scan reports missing photos: the requested set
minus the available set is non-empty (`if missing: st.error(...)`). -/
def missingReported (fs : FS) (df : List Row) : Bool :=
  (requestedPhotos df).any (fun r => !((availablePhotos fs).contains r))

/-- The ZIP variant's run after extraction: the pre-scan verdict (an
error box, no `st.stop()`) together with the cards the row loop then
produces for every roster row. -/
def runZip (ctx : Ctx) (template : PILImage) (df : List Row) : Bool × List PILImage :=
  (missingReported ctx.fs df, outputCards ctx template df)

/-! ## Main control flow of `app.py` (lines 99-225)

Exit paths of one run, tracking the extraction directory.  `tmpdir`
is created after the roster and template load (line 116); the only
`shutil.rmtree` in `app.py` is in the archive-extraction `except`
branch (line 127) — no cleanup follows the row loop or the PDF
export. -/

structure RunInput where
  excelOk : Bool
  templateOk : Bool
  extractOk : Bool
deriving DecidableEq

structure RunTrace where
  tmpdirCreated : Bool
  tmpdirDeleted : Bool
  stopped : Bool
deriving DecidableEq

/-- Control flow of `app.py`'s main block with respect to the
ephemeral extraction directory. -/
def mainFlow (inp : RunInput) : RunTrace :=
  if !inp.excelOk then ⟨false, false, true⟩
  else if !inp.templateOk then ⟨false, false, true⟩
  else if !inp.extractOk then ⟨true, true, true⟩
  else ⟨true, false, false⟩

end App

/-! ## Multi-line drawing, `requirements.txt` variant (lines 117-127)

```python
def draw_aligned_text(draw, xy, text, font, fill="black", anchor="rt"):
    if not text:
        return
    lines = str(text).split("\n")
    x, y = xy
    for i, line in enumerate(lines):
        if i > 0:
            bbox = draw.textbbox((0, 0), line, font=font)
            y += (bbox[3] - bbox[1])
        draw.text((x, y), line, font=font, fill=fill, anchor=anchor)
```
-/

/-- Python `str.split("\n")` on the character list: a single-character
separator split that keeps empty pieces (`"a\n" -> ["a", ""]`,
`"" -> [""]`). -/
def splitLinesChars : List Char → List (List Char)
  | [] => [[]]
  | c :: rest =>
    let r := splitLinesChars rest
    if c = '\n' then [] :: r
    else
      match r with
      | [] => [[c]]
      | l :: ls => (c :: l) :: ls

/-- Python `text.split("\n")`. -/
def pySplitNL (s : String) : List String :=
  (splitLinesChars s.data).map (fun l => ⟨l⟩)

namespace Req

/-- The `for i, line in enumerate(lines)` body for `i > 0`: each line
first advances `y` by its own bbox height, then is drawn. -/
def drawRest (hgt : String → Nat) (x : Int) : Int → List String → List TextDraw
  | _, [] => []
  | y, l :: ls => ⟨x, y + hgt l, l⟩ :: drawRest hgt x (y + hgt l) ls

/-- `requirements.txt` `draw_aligned_text`: split the (already shaped)
text on line breaks and draw each line, the first at `xy`, every
further line below the previous by its own bbox height. -/
def draw_aligned_text (hgt : String → Nat) (xy : Int × Int) (text : String) :
    List TextDraw :=
  if text = "" then []
  else
    match pySplitNL text with
    | [] => []
    | l :: ls => ⟨xy.1, xy.2, l⟩ :: drawRest hgt xy.1 xy.2 ls

end Req

/-- Whether an operation is a paste at the photo anchor `PHOTO_POS` —
the observable difference between a card with and without a photo. -/
def isPhotoPaste : DrawOp → Bool
  | .pasteAt x y _ _ => x == PHOTO_POS.1 && y == PHOTO_POS.2
  | .text _ => false

/-! ## Concrete instances used to exercise the theorems -/

/-- A minimal environment: identity shaping, zero text heights, an
empty photo tree, no existing paths, and failing open/encode calls. -/
def ctx0 : Ctx :=
  ⟨id, id, fun _ => 0, [], fun _ => false, fun _ => none, fun _ => none⟩

/-- A 1000x600 template, freshly opened (no composited operations). -/
def tmpl0 : PILImage := ⟨1000, 600, []⟩

/-- A one-row roster requesting a photo that no tree provides. -/
def dfGhost : List Row := [[("الصورة", Cell.strV "ghost.png")]]

/-! ## Helper lemmas: stable sort head and resolver characterization -/

theorem insertionSortKey_head (key : α → Nat) (l : List α) :
    (insertionSortKey key l).head? = firstMinBy key l := by
  induction l with
  | nil => rfl
  | cons a l ih =>
    show (orderedInsertKey key a (insertionSortKey key l)).head? = firstMinBy key (a :: l)
    cases h : insertionSortKey key l with
    | nil =>
      have hn : firstMinBy key l = none := by rw [← ih, h]; rfl
      simp [orderedInsertKey, firstMinBy, hn]
    | cons b t =>
      have hb : firstMinBy key l = some b := by rw [← ih, h]; rfl
      by_cases hab : key a ≤ key b
      · simp [orderedInsertKey, firstMinBy, hb, hab]
      · simp [orderedInsertKey, firstMinBy, hb, hab]

theorem firstMinBy_mem (key : α → Nat) (l : List α) (b : α)
    (h : firstMinBy key l = some b) : b ∈ l := by
  induction l with
  | nil => simp [firstMinBy] at h
  | cons a l ih =>
    rw [firstMinBy] at h
    cases hl : firstMinBy key l with
    | none => rw [hl] at h; simp at h; simp [h]
    | some c =>
      rw [hl] at h
      by_cases hac : key a ≤ key c
      · simp [hac] at h; simp [h]
      · simp [hac] at h; subst h; exact List.mem_cons_of_mem _ (ih hl)

theorem firstMinBy_eq_none_iff (key : α → Nat) (l : List α) :
    firstMinBy key l = none ↔ l = [] := by
  cases l with
  | nil => simp [firstMinBy]
  | cons a l =>
    simp only [firstMinBy]
    cases firstMinBy key l with
    | none => simp
    | some b =>
      by_cases h : key a ≤ key b <;> simp [h]

theorem App.findInFiles_isSome_iff (stem d : String) (fns : List String) :
    (App.findInFiles stem d fns).isSome ↔ ∃ fn ∈ fns, lowerStr (pyStem fn) = stem := by
  induction fns with
  | nil => simp [App.findInFiles]
  | cons fn fns ih =>
    by_cases h : lowerStr (pyStem fn) = stem
    · simp [App.findInFiles, h]
    · simp [App.findInFiles, h, ih]

theorem App.findInFiles_eq_some (stem d : String) (fns : List String) (p : String)
    (h : App.findInFiles stem d fns = some p) :
    ∃ fn ∈ fns, lowerStr (pyStem fn) = stem ∧ p = d ++ "/" ++ fn := by
  induction fns with
  | nil => simp [App.findInFiles] at h
  | cons fn fns ih =>
    by_cases hm : lowerStr (pyStem fn) = stem
    · rw [App.findInFiles, if_pos hm] at h
      exact ⟨fn, List.mem_cons_self _ _, hm, (Option.some_inj.mp h).symm⟩
    · rw [App.findInFiles, if_neg hm] at h
      obtain ⟨fn', hfn', hm', hp⟩ := ih h
      exact ⟨fn', List.mem_cons_of_mem _ hfn', hm', hp⟩

theorem App.findInWalk_isSome_iff (stem : String) (fs : FS) :
    (App.findInWalk stem fs).isSome ↔ hasMatch fs stem := by
  induction fs with
  | nil => simp [App.findInWalk, hasMatch]
  | cons e rest ih =>
    rw [App.findInWalk]
    cases hf : App.findInFiles stem e.1 e.2 with
    | some p =>
      simp only [Option.isSome_some, true_iff]
      obtain ⟨fn, hfn, hm, _⟩ := App.findInFiles_eq_some stem e.1 e.2 p hf
      exact ⟨e, List.mem_cons_self _ _, fn, hfn, hm⟩
    | none =>
      rw [ih]
      constructor
      · intro ⟨e', he', fn, hfn, hm⟩
        exact ⟨e', List.mem_cons_of_mem _ he', fn, hfn, hm⟩
      · intro ⟨e', he', fn, hfn, hm⟩
        rcases List.mem_cons.mp he' with rfl | he'
        · exfalso
          have : (App.findInFiles stem e'.1 e'.2).isSome :=
            (App.findInFiles_isSome_iff stem e'.1 e'.2).mpr ⟨fn, hfn, hm⟩
          rw [hf] at this; simp at this
        · exact ⟨e', he', fn, hfn, hm⟩

theorem App.findInWalk_eq_some (stem : String) (fs : FS) (p : String)
    (h : App.findInWalk stem fs = some p) : matchedPath fs stem p := by
  induction fs with
  | nil => simp [App.findInWalk] at h
  | cons e rest ih =>
    rw [App.findInWalk] at h
    cases hf : App.findInFiles stem e.1 e.2 with
    | some q =>
      rw [hf] at h
      obtain ⟨fn, hfn, hm, hp⟩ := App.findInFiles_eq_some stem e.1 e.2 q hf
      exact ⟨e, List.mem_cons_self _ _, fn, hfn, hm, (Option.some_inj.mp h) ▸ hp⟩
    | none =>
      rw [hf] at h
      obtain ⟨e', he', fn, hfn, hm, hp⟩ := ih h
      exact ⟨e', List.mem_cons_of_mem _ he', fn, hfn, hm, hp⟩

theorem Req.mem_candidates_iff (fs : FS) (stem p : String) :
    p ∈ Req.candidates fs stem ↔ matchedPath fs stem p := by
  simp only [Req.candidates, matchedPath, List.mem_flatMap, List.mem_map, List.mem_filter]
  constructor
  · intro ⟨e, he, fn, ⟨hfn, hm⟩, hp⟩
    exact ⟨e, he, fn, hfn, by simpa using hm, hp.symm⟩
  · intro ⟨e, he, fn, hfn, hm, hp⟩
    exact ⟨e, he, fn, ⟨hfn, by simpa using hm⟩, hp.symm⟩

theorem Req.candidates_eq_nil_iff (fs : FS) (stem : String) :
    Req.candidates fs stem = [] ↔ ¬ hasMatch fs stem := by
  constructor
  · intro h ⟨e, he, fn, hfn, hm⟩
    have : (e.1 ++ "/" ++ fn) ∈ Req.candidates fs stem :=
      (Req.mem_candidates_iff fs stem _).mpr ⟨e, he, fn, hfn, hm, rfl⟩
    rw [h] at this; simp at this
  · intro h
    by_contra hne
    obtain ⟨p, hp⟩ := List.exists_mem_of_ne_nil _ hne
    exact h (by
      obtain ⟨e, he, fn, hfn, hm, _⟩ := (Req.mem_candidates_iff fs stem p).mp hp
      exact ⟨e, he, fn, hfn, hm⟩)

/-- The `requirements.txt` resolver, for a non-empty request, returns
exactly the first candidate of minimal extension priority. -/
theorem Req.find_eq_firstMinBy (fs : FS) (requested : String) (h : requested ≠ "") :
    Req.find_photo_path fs requested =
      firstMinBy extPriority (Req.candidates fs (lowerStr (pyStem requested))) := by
  rw [Req.find_photo_path, if_neg h, ← insertionSortKey_head]
  cases insertionSortKey extPriority (Req.candidates fs (lowerStr (pyStem requested))) <;> rfl

theorem Req.find_isSome_iff (fs : FS) (requested : String) (h : requested ≠ "") :
    (Req.find_photo_path fs requested).isSome ↔
      hasMatch fs (lowerStr (pyStem requested)) := by
  rw [Req.find_eq_firstMinBy fs requested h]
  constructor
  · intro hs
    obtain ⟨p, hp⟩ := Option.isSome_iff_exists.mp hs
    have hpm := firstMinBy_mem extPriority _ p hp
    obtain ⟨e, he, fn, hfn, hm, _⟩ :=
      (Req.mem_candidates_iff fs (lowerStr (pyStem requested)) p).mp hpm
    exact ⟨e, he, fn, hfn, hm⟩
  · intro hm
    rcases hc : firstMinBy extPriority (Req.candidates fs (lowerStr (pyStem requested))) with _ | p
    · rw [firstMinBy_eq_none_iff] at hc
      exact absurd hm ((Req.candidates_eq_nil_iff fs _).mp hc)
    · simp

/-! ## Helper lemmas: the composer preserves canvas dimensions and
only appends operations -/

theorem App.drawOps_width (card : PILImage) (calls : List TextDraw) :
    (App.drawOps card calls).width = card.width := rfl

theorem App.drawOps_height (card : PILImage) (calls : List TextDraw) :
    (App.drawOps card calls).height = card.height := rfl

theorem App.textLayer_width (ctx : Ctx) (row : Row) (card : PILImage) :
    (App.textLayer ctx row card).width = card.width := rfl

theorem App.textLayer_height (ctx : Ctx) (row : Row) (card : PILImage) :
    (App.textLayer ctx row card).height = card.height := rfl

theorem App.photoStep_width (ctx : Ctx) (row : Row) (card : PILImage) :
    (App.photoStep ctx row card).1.width = card.width := by
  rw [App.photoStep]
  cases App.find_photo_path ctx.fs (getField row "الصورة") with
  | none => rfl
  | some p =>
    by_cases hx : ctx.pathExists p
    · simp only [hx, if_true]
      cases ctx.openPhoto p <;> rfl
    · simp [hx]

theorem App.photoStep_height (ctx : Ctx) (row : Row) (card : PILImage) :
    (App.photoStep ctx row card).1.height = card.height := by
  rw [App.photoStep]
  cases App.find_photo_path ctx.fs (getField row "الصورة") with
  | none => rfl
  | some p =>
    by_cases hx : ctx.pathExists p
    · simp only [hx, if_true]
      cases ctx.openPhoto p <;> rfl
    · simp [hx]

theorem App.barcodeStep_width (ctx : Ctx) (row : Row) (card : PILImage) :
    (App.barcodeStep ctx row card).1.width = card.width := by
  rw [App.barcodeStep]
  by_cases h : getField row "الرقم القومي" = ""
  · simp only [h, if_true]
  · simp only [h, if_false]
    cases ctx.encodeBarcode (getField row "الرقم القومي") <;> rfl

theorem App.barcodeStep_height (ctx : Ctx) (row : Row) (card : PILImage) :
    (App.barcodeStep ctx row card).1.height = card.height := by
  rw [App.barcodeStep]
  by_cases h : getField row "الرقم القومي" = ""
  · simp only [h, if_true]
  · simp only [h, if_false]
    cases ctx.encodeBarcode (getField row "الرقم القومي") <;> rfl

theorem App.composeCard_width (ctx : Ctx) (template : PILImage) (row : Row) :
    (App.composeCard ctx template row).1.width = template.width := by
  rw [App.composeCard]
  simp only [App.barcodeStep_width, App.photoStep_width, App.textLayer_width]
  rfl

theorem App.composeCard_height (ctx : Ctx) (template : PILImage) (row : Row) :
    (App.composeCard ctx template row).1.height = template.height := by
  rw [App.composeCard]
  simp only [App.barcodeStep_height, App.photoStep_height, App.textLayer_height]
  rfl

theorem App.photoStep_ops_mono (ctx : Ctx) (row : Row) (card : PILImage)
    (op : DrawOp) (h : op ∈ card.ops) : op ∈ (App.photoStep ctx row card).1.ops := by
  rw [App.photoStep]
  cases App.find_photo_path ctx.fs (getField row "الصورة") with
  | none => exact h
  | some p =>
    by_cases hx : ctx.pathExists p
    · simp only [hx, if_true]
      cases ctx.openPhoto p with
      | none => exact h
      | some img => exact List.mem_append_left _ h
    · simp only [hx, Bool.false_eq_true, if_false]; exact h

theorem App.barcodeStep_ops_mono (ctx : Ctx) (row : Row) (card : PILImage)
    (op : DrawOp) (h : op ∈ card.ops) : op ∈ (App.barcodeStep ctx row card).1.ops := by
  rw [App.barcodeStep]
  by_cases he : getField row "الرقم القومي" = ""
  · simp only [he, if_true]; exact h
  · simp only [he, if_false]
    cases ctx.encodeBarcode (getField row "الرقم القومي") with
    | none => exact h
    | some bimg => exact List.mem_append_left _ h

theorem App.textLayer_ops (ctx : Ctx) (row : Row) (card : PILImage) :
    ∃ ts : List TextDraw, (App.textLayer ctx row card).ops = card.ops ++ ts.map DrawOp.text := by
  refine ⟨App.draw_bold_text (915 + NAME_OFFSET_X, 240 + NAME_OFFSET_Y)
      (App.prepare_text ctx (getField row "الاسم")) ++
    App.draw_aligned_text (915 + NAME_OFFSET_X,
        240 + NAME_OFFSET_Y + ((ctx.textHeight (App.prepare_text ctx (getField row "الاسم")) : Int) + 20))
      (App.prepare_text ctx (getField row "الوظيفة")) ++
    App.draw_aligned_text (915 + NAME_OFFSET_X,
        240 + NAME_OFFSET_Y + ((ctx.textHeight (App.prepare_text ctx (getField row "الاسم")) : Int) + 20) +
          ((ctx.textHeight (App.prepare_text ctx (getField row "الوظيفة")) : Int) + 25))
      (App.prepare_text ctx ("الرقم الوظيفي: " ++ getField row "الرقم")), ?_⟩
  simp [App.textLayer, App.drawOps, List.map_append, List.append_assoc]

/-- When the resolver finds nothing, the photo step records exactly
one not-found warning and leaves the card untouched. -/
theorem App.photoStep_none (ctx : Ctx) (row : Row) (card : PILImage)
    (h : App.find_photo_path ctx.fs (getField row "الصورة") = none) :
    App.photoStep ctx row card =
      (card, [App.Warn.photoNotFound (rawName row) (getField row "الصورة")]) := by
  rw [App.photoStep, h]

theorem App.barcodeStep_ops (ctx : Ctx) (row : Row) (card : PILImage) :
    ∃ extra : List DrawOp, (App.barcodeStep ctx row card).1.ops = card.ops ++ extra ∧
      ∀ op ∈ extra, isPhotoPaste op = false := by
  rw [App.barcodeStep]
  by_cases he : getField row "الرقم القومي" = ""
  · exact ⟨[], by simp [he]⟩
  · simp only [he, if_false]
    cases ctx.encodeBarcode (getField row "الرقم القومي") with
    | none => exact ⟨[], by simp⟩
    | some bimg =>
      refine ⟨[DrawOp.pasteAt BARCODE_POS.1 BARCODE_POS.2 BARCODE_SIZE.1 BARCODE_SIZE.2], ?_, ?_⟩
      · rfl
      · intro op hop
        rw [List.mem_singleton] at hop
        subst hop
        rfl

/-! ## Helper lemmas: line-by-line drawing in the richer variant -/

theorem Req.drawRest_map_txt (hgt : String → Nat) (x : Int) (ls : List String) :
    ∀ y : Int, (Req.drawRest hgt x y ls).map TextDraw.txt = ls := by
  induction ls with
  | nil => intro y; rfl
  | cons l ls ih => intro y; simp [Req.drawRest, ih]

theorem Req.drawRest_x (hgt : String → Nat) (x : Int) (ls : List String) :
    ∀ y : Int, ∀ c ∈ Req.drawRest hgt x y ls, c.x = x := by
  induction ls with
  | nil => intro y c hc; simp [Req.drawRest] at hc
  | cons l ls ih =>
    intro y c hc
    rw [Req.drawRest] at hc
    rcases List.mem_cons.mp hc with rfl | hc
    · rfl
    · exact ih (y + hgt l) c hc

theorem Req.drawRest_chain (hgt : String → Nat) (x : Int) (ls : List String) :
    ∀ (y : Int) (l : String),
      List.Chain' (fun a b => a.y ≤ b.y) (⟨x, y, l⟩ :: Req.drawRest hgt x y ls) := by
  induction ls with
  | nil => intro y l; simp [Req.drawRest]
  | cons l2 ls2 ih =>
    intro y l
    rw [Req.drawRest, List.chain'_cons]
    constructor
    · show y ≤ y + (hgt l2 : Int)
      omega
    · exact ih (y + hgt l2) l2

/-- The composed employee-number label is never the empty string,
whatever the employee-number field holds. -/
theorem label_append_ne_empty (s : String) : ("الرقم الوظيفي: " ++ s) ≠ "" := by
  obtain ⟨cs⟩ := s
  intro h
  have h2 : "الرقم الوظيفي: ".data ++ cs = ([] : List Char) := congrArg String.data h
  simp at h2

/-- The employee-number label draw call lands in the text layer
whenever its shaped text is non-empty. -/
theorem App.textLayer_label_mem (ctx : Ctx) (row : Row) (card : PILImage)
    (h : App.prepare_text ctx ("الرقم الوظيفي: " ++ getField row "الرقم") ≠ "") :
    ∃ x y,
      DrawOp.text ⟨x, y, App.prepare_text ctx ("الرقم الوظيفي: " ++ getField row "الرقم")⟩
        ∈ (App.textLayer ctx row card).ops := by
  refine ⟨915 + NAME_OFFSET_X,
    240 + NAME_OFFSET_Y +
        ((ctx.textHeight (App.prepare_text ctx (getField row "الاسم")) : Int) + 20) +
      ((ctx.textHeight (App.prepare_text ctx (getField row "الوظيفة")) : Int) + 25), ?_⟩
  simp only [App.textLayer, App.drawOps]
  refine List.mem_append_right _ ?_
  rw [App.draw_aligned_text, if_neg h]
  simp

/-! ## Claim theorems -/

/-- C3: for every walked tree and non-empty requested filename, both
resolver variants succeed exactly when some file's name-without-extension
equals, case-insensitively, the requested value's name-without-extension
(the requested value's own extension being ignored by `pyStem`), and any
returned path is such a matching file joined to its directory. -/
theorem photo_resolver_stem_matching (fs : FS) (requested : String) (h : requested ≠ "") :
    ((App.find_photo_path fs requested).isSome ↔ hasMatch fs (lowerStr (pyStem requested)))
    ∧ ((Req.find_photo_path fs requested).isSome ↔ hasMatch fs (lowerStr (pyStem requested)))
    ∧ (∀ p, App.find_photo_path fs requested = some p →
        matchedPath fs (lowerStr (pyStem requested)) p)
    ∧ (∀ p, Req.find_photo_path fs requested = some p →
        matchedPath fs (lowerStr (pyStem requested)) p) := by
  refine ⟨?_, Req.find_isSome_iff fs requested h, ?_, ?_⟩
  · rw [App.find_photo_path, if_neg h]
    exact App.findInWalk_isSome_iff _ fs
  · intro p hp
    rw [App.find_photo_path, if_neg h] at hp
    exact App.findInWalk_eq_some _ fs p hp
  · intro p hp
    rw [Req.find_eq_firstMinBy fs requested h] at hp
    exact (Req.mem_candidates_iff fs _ p).mp (firstMinBy_mem _ _ p hp)

/-- C3 witness: a directory holding `alice.PNG` resolves a request
`Alice.jpg` to that file, in both variants. -/
theorem photo_resolver_stem_matching_witness :
    ((App.find_photo_path [("d", ["alice.PNG"])] "Alice.jpg").isSome) ∧
    App.find_photo_path [("d", ["alice.PNG"])] "Alice.jpg" = some "d/alice.PNG" ∧
    Req.find_photo_path [("d", ["alice.PNG"])] "Alice.jpg" = some "d/alice.PNG" :=
  ⟨(photo_resolver_stem_matching [("d", ["alice.PNG"])] "Alice.jpg" (by decide)).1.mpr
     ⟨("d", ["alice.PNG"]), by simp, "alice.PNG", by simp, by decide⟩,
   by decide, by decide⟩

/-- C8: each resolver variant returns not-found exactly when the
requested value is empty or no file under the root has a matching
stem; in particular an empty request is refused before any walk. -/
theorem photo_resolver_not_found_iff (fs : FS) (requested : String) :
    (App.find_photo_path fs "" = none ∧ Req.find_photo_path fs "" = none)
    ∧ (App.find_photo_path fs requested = none ↔
        (requested = "" ∨ ¬ hasMatch fs (lowerStr (pyStem requested))))
    ∧ (Req.find_photo_path fs requested = none ↔
        (requested = "" ∨ ¬ hasMatch fs (lowerStr (pyStem requested)))) := by
  refine ⟨⟨rfl, rfl⟩, ?_, ?_⟩
  · by_cases hr : requested = ""
    · simp [App.find_photo_path, hr]
    · rw [App.find_photo_path, if_neg hr, ← Option.not_isSome_iff_eq_none,
        App.findInWalk_isSome_iff]
      simp [hr]
  · by_cases hr : requested = ""
    · simp [Req.find_photo_path, hr]
    · rw [← Option.not_isSome_iff_eq_none, Req.find_isSome_iff fs requested hr]
      simp [hr]

/-- C2 counterexample: the `app.py` resolver applies no extension
priority — when the walk encounters `bob.jpg` before `bob.png`, the
request `bob` resolves to the `.jpg` path, not the `.png` path the
claim demands. -/
theorem photo_resolver_tiebreak_counterexample :
    App.find_photo_path [("d", ["bob.jpg", "bob.png"])] "bob" = some "d/bob.jpg" ∧
    App.find_photo_path [("d", ["bob.jpg", "bob.png"])] "bob" ≠ some "d/bob.png" := by
  constructor
  · rfl
  · decide

/-- C2 amended: the `requirements.txt` resolver does return, for any
non-empty request, the first candidate in encounter order among those
of minimal extension priority (PNG, JPG, JPEG, BMP, then the rest). -/
theorem photo_resolver_tiebreak_amended (fs : FS) (requested : String) (h : requested ≠ "") :
    Req.find_photo_path fs requested =
      firstMinBy extPriority (Req.candidates fs (lowerStr (pyStem requested))) :=
  Req.find_eq_firstMinBy fs requested h

/-- C2 witness: with both `bob.png` and `bob.jpg` present, the
`requirements.txt` resolver returns the `.png` path. -/
theorem photo_resolver_tiebreak_witness :
    Req.find_photo_path [("d", ["bob.jpg", "bob.png"])] "bob" = some "d/bob.png" :=
  (photo_resolver_tiebreak_amended [("d", ["bob.jpg", "bob.png"])] "bob" (by decide)).trans
    (by decide)

/-- C7 counterexample: the `app.py` drawing helper performs no line
splitting — a two-line input is passed to a single draw call whole,
not drawn line by line. -/
theorem multiline_single_call_counterexample :
    App.draw_aligned_text (0, 0) "a\nb" = [⟨0, 0, "a\nb"⟩] ∧
    pySplitNL "a\nb" = ["a", "b"] ∧
    (App.draw_aligned_text (0, 0) "a\nb").length ≠ (pySplitNL "a\nb").length := by
  refine ⟨rfl, by decide, by decide⟩

/-- C7 amended: in the `requirements.txt` variant the drawing caller
splits the (already shaped) text on line breaks and draws each line in
its own call at the same x, every line at or below the previous one. -/
theorem multiline_linewise_amended (hgt : String → Nat) (xy : Int × Int) (text : String)
    (h : text ≠ "") :
    (Req.draw_aligned_text hgt xy text).map TextDraw.txt = pySplitNL text ∧
    (∀ c ∈ Req.draw_aligned_text hgt xy text, c.x = xy.1) ∧
    List.Chain' (fun a b => a.y ≤ b.y) (Req.draw_aligned_text hgt xy text) := by
  rw [Req.draw_aligned_text, if_neg h]
  cases hs : pySplitNL text with
  | nil => simp
  | cons l ls =>
    refine ⟨?_, ?_, ?_⟩
    · simp [Req.drawRest_map_txt]
    · intro c hc
      rcases List.mem_cons.mp hc with rfl | hc
      · rfl
      · exact Req.drawRest_x hgt xy.1 ls xy.2 c hc
    · exact Req.drawRest_chain hgt xy.1 ls xy.2 l

/-- C7 witness: `"a\nb"` with constant bbox height 7, anchored at
(5, 9), is drawn as two calls, the second 7 below the first. -/
theorem multiline_linewise_witness :
    Req.draw_aligned_text (fun _ => 7) (5, 9) "a\nb" = [⟨5, 9, "a"⟩, ⟨5, 16, "b"⟩] ∧
    ((Req.draw_aligned_text (fun _ => 7) (5, 9) "a\nb").map TextDraw.txt = pySplitNL "a\nb" ∧
     (∀ c ∈ Req.draw_aligned_text (fun _ => 7) (5, 9) "a\nb", c.x = 5) ∧
     List.Chain' (fun a b => a.y ≤ b.y) (Req.draw_aligned_text (fun _ => 7) (5, 9) "a\nb")) :=
  ⟨by decide, multiline_linewise_amended (fun _ => 7) (5, 9) "a\nb" (by decide)⟩

/-- C1: for every non-empty roster the PDF export succeeds and its
pages are exactly one card per roster row, in roster order, the i-th
page being the card composed from the i-th row alone — whatever the
environment does to any row's photo resolution, photo open or barcode
encode (all failure patterns are instances of `ctx`). -/
theorem batch_pipeline_pages (ctx : Ctx) (template : PILImage) (rows : List Row)
    (h : rows ≠ []) :
    ∃ pages, App.exportPDF (App.outputCards ctx template rows) = some pages ∧
      pages.length = rows.length ∧
      ∀ i, pages.get? i = (rows.get? i).map (fun r => (App.composeCard ctx template r).1) := by
  cases rows with
  | nil => exact absurd rfl h
  | cons r rs =>
    refine ⟨App.outputCards ctx template (r :: rs), rfl, ?_, ?_⟩
    · simp [App.outputCards]
    · intro i
      simp only [App.outputCards, List.get?_eq_getElem?, List.getElem?_map]

/-- C1 witness: a one-row roster in the failing environment `ctx0`
(no photos, failing barcode encoder) still yields a one-page export. -/
theorem batch_pipeline_pages_witness :
    ([([] : Row)] : List Row) ≠ [] ∧
    (∃ pages, App.exportPDF (App.outputCards ctx0 tmpl0 [([] : Row)]) = some pages ∧
      pages.length = ([([] : Row)] : List Row).length ∧
      ∀ i, pages.get? i =
        (([([] : Row)] : List Row).get? i).map (fun r => (App.composeCard ctx0 tmpl0 r).1)) :=
  ⟨by decide, batch_pipeline_pages ctx0 tmpl0 [([] : Row)] (by decide)⟩

/-- C4: evaluating the `app.py` control flow on a fully successful run
(roster read, template read, archive extracted, cards generated and
exported): the extraction directory is created but never deleted —
the only `shutil.rmtree` in `app.py` sits in the extraction `except`
branch, so the success path leaks the directory, contradicting the
claim that every exit path deletes it. -/
theorem tmpdir_leak_on_success :
    (App.mainFlow ⟨true, true, true⟩).tmpdirCreated = true ∧
    (App.mainFlow ⟨true, true, true⟩).tmpdirDeleted = false ∧
    (App.mainFlow ⟨true, true, true⟩).stopped = false := by
  decide

/-- C5: every composed card has exactly the template's pixel
dimensions; and for a freshly opened template, a row whose photo
filename is missing still composes (the function is total), records a
photo-not-found warning for that row, and pastes nothing at the photo
anchor (the photo area stays blank). -/
theorem card_dimensions_invariant (ctx : Ctx) (template : PILImage) (row : Row) :
    ((App.composeCard ctx template row).1.width = template.width ∧
     (App.composeCard ctx template row).1.height = template.height) ∧
    (template.ops = [] → getField row "الصورة" = "" →
      (App.Warn.photoNotFound (rawName row) "" ∈ (App.composeCard ctx template row).2 ∧
       ∀ op ∈ (App.composeCard ctx template row).1.ops, isPhotoPaste op = false)) := by
  constructor
  · exact ⟨App.composeCard_width ctx template row, App.composeCard_height ctx template row⟩
  · intro ht hp
    have hfind : App.find_photo_path ctx.fs (getField row "الصورة") = none := by
      rw [hp]; rfl
    have hps := App.photoStep_none ctx row (App.textLayer ctx row template.copy) hfind
    rw [hp] at hps
    constructor
    · simp [App.composeCard, hps]
    · intro op hop
      simp only [App.composeCard, hps] at hop
      obtain ⟨extra, heq, hextra⟩ :=
        App.barcodeStep_ops ctx row (App.textLayer ctx row template.copy)
      rw [heq] at hop
      rcases List.mem_append.mp hop with hmem | hmem
      · obtain ⟨ts, hts⟩ := App.textLayer_ops ctx row template.copy
        rw [hts] at hmem
        have hco : (PILImage.copy template).ops = [] := ht
        rw [hco] at hmem
        simp only [List.nil_append] at hmem
        obtain ⟨t, _, rfl⟩ := List.mem_map.mp hmem
        rfl
      · exact hextra op hmem

/-- C5 witness: an empty row on a fresh 1000x600 template composes to
a 1000x600 card with a photo-not-found warning and a blank photo area. -/
theorem card_dimensions_invariant_witness :
    ((App.composeCard ctx0 tmpl0 []).1.width = tmpl0.width ∧
     (App.composeCard ctx0 tmpl0 []).1.height = tmpl0.height) ∧
    (App.Warn.photoNotFound (rawName []) "" ∈ (App.composeCard ctx0 tmpl0 []).2 ∧
     ∀ op ∈ (App.composeCard ctx0 tmpl0 []).1.ops, isPhotoPaste op = false) :=
  ⟨(card_dimensions_invariant ctx0 tmpl0 []).1,
   (card_dimensions_invariant ctx0 tmpl0 []).2 rfl rfl⟩

/-- C6 counterexample: a present column whose cell is missing (pandas
NaN) is extracted as the string `"nan"`, not the empty string —
`str(row.get(col, ""))` only defaults an absent column, while
`str(float('nan'))` is `"nan"`. -/
theorem missing_value_nan_counterexample :
    getField [("الاسم", Cell.nan)] "الاسم" = "nan" ∧ ("nan" : String) ≠ "" := by
  exact ⟨rfl, by decide⟩

/-- C6 amended: a text field whose column is absent from the row is
treated as the empty string; a present column holding a missing (NaN)
cell yields the literal string `"nan"` instead. -/
theorem missing_field_amended (row : Row) (col : String) :
    (row.lookup col = none → getField row col = "") ∧
    (row.lookup col = some Cell.nan → getField row col = "nan") := by
  constructor
  · intro h
    simp only [getField, rowGetStr, h]
    rfl
  · intro h
    simp only [getField, rowGetStr, h]
    rfl

/-- C6 witness: both branches of the amended claim at concrete rows. -/
theorem missing_field_witness :
    getField [] "الاسم" = "" ∧
    getField [("الاسم", Cell.nan)] "الرقم" = "" ∧
    getField [("الصورة", Cell.nan)] "الصورة" = "nan" :=
  ⟨(missing_field_amended [] "الاسم").1 rfl,
   (missing_field_amended [("الاسم", Cell.nan)] "الرقم").1 (by decide),
   (missing_field_amended [("الصورة", Cell.nan)] "الصورة").2 (by decide)⟩

/-- C9: the composed employee-number label is non-empty for every row
(the fixed prefix guarantees it), and whenever its shaped form is
non-empty the label's draw call is present on the finished card —
in particular for rows whose employee-number field is empty. -/
theorem job_id_label_always_drawn (ctx : Ctx) (template : PILImage) (row : Row) :
    ("الرقم الوظيفي: " ++ getField row "الرقم") ≠ "" ∧
    (App.prepare_text ctx ("الرقم الوظيفي: " ++ getField row "الرقم") ≠ "" →
      ∃ x y,
        DrawOp.text ⟨x, y, App.prepare_text ctx ("الرقم الوظيفي: " ++ getField row "الرقم")⟩
          ∈ (App.composeCard ctx template row).1.ops) := by
  constructor
  · exact label_append_ne_empty _
  · intro h
    obtain ⟨x, y, hmem⟩ := App.textLayer_label_mem ctx row (PILImage.copy template) h
    refine ⟨x, y, ?_⟩
    simp only [App.composeCard]
    exact App.barcodeStep_ops_mono _ _ _ _ (App.photoStep_ops_mono _ _ _ _ hmem)

/-- C9 witness: a row with no employee number (empty roster row, in
the identity-shaping environment) still gets its label drawn. -/
theorem job_id_label_always_drawn_witness :
    App.prepare_text ctx0 ("الرقم الوظيفي: " ++ getField [] "الرقم") ≠ "" ∧
    ∃ x y,
      DrawOp.text ⟨x, y, App.prepare_text ctx0 ("الرقم الوظيفي: " ++ getField [] "الرقم")⟩
        ∈ (App.composeCard ctx0 tmpl0 []).1.ops :=
  ⟨by decide, (job_id_label_always_drawn ctx0 tmpl0 []).2 (by decide)⟩

/-- C10: even when the ZIP variant's pre-scan reports missing photos,
the row loop still runs over the whole roster and produces one card
per row, in order. -/
theorem prescan_does_not_halt (ctx : Ctx) (template : PILImage) (df : List Row)
    (_h : App.missingReported ctx.fs df = true) :
    (App.runZip ctx template df).2.length = df.length ∧
    ∀ i, (App.runZip ctx template df).2.get? i =
      (df.get? i).map (fun r => (App.composeCard ctx template r).1) := by
  constructor
  · simp [App.runZip, App.outputCards]
  · intro i
    simp only [App.runZip, App.outputCards, List.get?_eq_getElem?, List.getElem?_map]

/-- C10 witness: a roster requesting `ghost.png` against an empty
tree makes the pre-scan report a missing photo, yet one card is still
produced for its one row. -/
theorem prescan_does_not_halt_witness :
    App.missingReported ctx0.fs dfGhost = true ∧
    ((App.runZip ctx0 tmpl0 dfGhost).2.length = dfGhost.length ∧
     ∀ i, (App.runZip ctx0 tmpl0 dfGhost).2.get? i =
       (dfGhost.get? i).map (fun r => (App.composeCard ctx0 tmpl0 r).1)) :=
  ⟨by decide, prescan_does_not_halt ctx0 tmpl0 dfGhost (by decide)⟩
